import Mathlib

/-!
Verification of the BER_TEA_bot Telegram storefront bot against its design
specification.  The Python sources are shallowly embedded: pure helpers
(`utils/validators.py`, `utils/utils.py`, `config.py`) become Lean functions
on `String`/`List Char`; the aiogram handlers become functions from the
relevant message/callback payload and session data to an explicit outcome
value plus the updated store; the PostgreSQL tables become Lean lists and the
queries list transformations.

Modelling conventions, stated once:
* Python `str` values are Lean `String`s, manipulated through their
  underlying `List Char` (`String.data`) so that everything reduces in the
  kernel.  `str.strip`, `str.lower`, `str.isdigit`, `str.split` and
  `str.replace` are modelled for the character ranges the program actually
  feeds them (ASCII plus the Cyrillic alphabet for `lower`; ASCII digits for
  `isdigit`); CPython additionally accepts some exotic Unicode in these,
  which no input in this code base uses.
* Python `float` values are modelled by `PyFloat`: either a finite decimal
  `mantissa * 10 ^ exponent`, or one of the specials `inf`, `ninf`, `nan`.
  The literal parser `pyFloatOfString` follows CPython's accepted grammar
  (optional sign, digits with optional fraction and exponent, or the
  case-insensitive words `inf`/`infinity`/`nan`).  Finite literals are kept
  exactly; IEEE-754 rounding/overflow of extreme literals is not modelled
  (no claim here depends on it).  Numeric underscore separators are omitted.
* Database numeric columns that the handlers only ever fill with Python
  floats (product `weight`/`price`, order totals) are modelled as `ℚ`; the
  text-column round-trip `float(str(x))` is the identity on these values.
-/

/-! ## Python string primitives -/

/-- Whitespace as recognised by `str.strip` (ASCII portion). -/
def pyIsSpace (c : Char) : Bool :=
  c = ' ' || c = '\t' || c = '\n' || c = '\x0d' || c = '\x0b' || c = '\x0c'

/-- `str.strip()` on the underlying character list. -/
def pyStripList (l : List Char) : List Char :=
  ((l.dropWhile pyIsSpace).reverse.dropWhile pyIsSpace).reverse

/-- `str.strip()`. -/
def pyStrip (s : String) : String :=
  ⟨pyStripList s.data⟩

/-- ASCII decimal digit (the `[0-9]` class and the digits `float`/`int` read). -/
def isAsciiDigit (c : Char) : Bool :=
  48 ≤ c.toNat && c.toNat ≤ 57

/-- `str.isdigit()` restricted to ASCII: nonempty and all digits. -/
def pyIsDigit (l : List Char) : Bool :=
  !l.isEmpty && l.all isAsciiDigit

/-- Numeric value of one ASCII digit. -/
def digitVal (c : Char) : Nat :=
  c.toNat - 48

/-- Value of a digit string, most significant first. -/
def digitsToNat (l : List Char) : Nat :=
  l.foldl (fun a c => 10 * a + digitVal c) 0

/-- `str.lower()` on one character, for ASCII and the Cyrillic alphabet
(`А`..`Я` and `Ё`), the alphabets this program's strings use. -/
def pyLowerChar (c : Char) : Char :=
  if 65 ≤ c.toNat && c.toNat ≤ 90 then Char.ofNat (c.toNat + 32)
  else if 0x410 ≤ c.toNat && c.toNat ≤ 0x42F then Char.ofNat (c.toNat + 0x20)
  else if c.toNat = 0x401 then Char.ofNat 0x451
  else c

/-- `str.lower()`. -/
def pyLower (s : String) : String :=
  ⟨s.data.map pyLowerChar⟩

/-- `str.replace(",", ".")` (single-character pattern, hence a map). -/
def commaToDot (s : String) : String :=
  ⟨s.data.map (fun c => if c = ',' then '.' else c)⟩

/-- `str.split(sep)` for a one-character separator, CPython semantics
(`"".split("_") = [""]`, empty runs kept). -/
def splitOnChar (sep : Char) (l : List Char) : List (List Char) :=
  l.foldr
    (fun c acc =>
      if c = sep then [] :: acc
      else
        match acc with
        | h :: t => (c :: h) :: t
        | [] => [[c]])
    [[]]

/-- `int(s)` for a decimal string: surrounding whitespace, an optional
sign, then at least one digit; anything else raises `ValueError` (`none`). -/
def pyIntOfString (s : String) : Option Int :=
  match pyStripList s.data with
  | '+' :: r => if pyIsDigit r then some (digitsToNat r : Int) else none
  | '-' :: r => if pyIsDigit r then some (-(digitsToNat r : Int)) else none
  | r => if pyIsDigit r then some (digitsToNat r : Int) else none

/-! ## Python float model -/

/-- A Python `float` as far as this program observes it: an exact finite
decimal `mantissa * 10 ^ exponent`, or one of the IEEE specials. -/
inductive PyFloat where
  | finite (mantissa exponent : Int)
  | inf
  | ninf
  | nan
deriving DecidableEq

/-- `v > 0` on a Python float: positive finite values and `inf`; `nan > 0`
is false in Python. -/
def PyFloat.isPos : PyFloat → Bool
  | .finite m _ => decide (0 < m)
  | .inf => true
  | .ninf => false
  | .nan => false

/-- Parse the numeric (non-special) part of a float literal: digits with an
optional fraction and an optional exponent, the whole input consumed. -/
def pyFloatNumber (sign : Int) (l : List Char) : Option PyFloat :=
  let intPart := l.takeWhile isAsciiDigit
  let r1 := l.dropWhile isAsciiDigit
  let fracPart :=
    match r1 with
    | '.' :: r => r.takeWhile isAsciiDigit
    | _ => []
  let r2 :=
    match r1 with
    | '.' :: r => r.dropWhile isAsciiDigit
    | _ => r1
  if intPart.isEmpty && fracPart.isEmpty then none
  else
    let mantissa : Int := sign * (digitsToNat (intPart ++ fracPart) : Int)
    let baseExp : Int := -(fracPart.length : Int)
    match r2 with
    | [] => some (.finite mantissa baseExp)
    | e :: r3 =>
      if e = 'e' || e = 'E' then
        match r3 with
        | '+' :: r4 =>
          if pyIsDigit r4 then some (.finite mantissa (baseExp + (digitsToNat r4 : Int)))
          else none
        | '-' :: r4 =>
          if pyIsDigit r4 then some (.finite mantissa (baseExp - (digitsToNat r4 : Int)))
          else none
        | r4 =>
          if pyIsDigit r4 then some (.finite mantissa (baseExp + (digitsToNat r4 : Int)))
          else none
      else none

/-- `float(s)`: strip whitespace, optional sign, then either one of the
case-insensitive specials `inf`/`infinity`/`nan` or a decimal number;
`none` models the `ValueError` raised otherwise. -/
def pyFloatOfString (s : String) : Option PyFloat :=
  let l := pyStripList s.data
  let sign : Int := match l with | '-' :: _ => -1 | _ => 1
  let body := match l with | '+' :: r => r | '-' :: r => r | r => r
  let low := body.map pyLowerChar
  if low = "inf".data || low = "infinity".data then
    some (if sign = 1 then .inf else .ninf)
  else if low = "nan".data then some .nan
  else pyFloatNumber sign body

/-! ## Validators (`utils/validators.py`) -/

/-- `is_positive_number(value)`: false on the empty string, otherwise strip,
turn commas into dots, and test `float(normalized) > 0`; parse failure is
caught and yields false. -/
def is_positive_number (value : String) : Bool :=
  if value.data.isEmpty then false
  else
    let normalized := commaToDot (pyStrip value)
    match pyFloatOfString normalized with
    | some v => v.isPos
    | none => false

/-! ### The phone regular expression (`config.PHONE_PATTERN`)

`^(\+?7|8)?[\s\-]?\(?[0-9]{3}\)?[\s\-]?[0-9]{3}[\s\-]?[0-9]{2}[\s\-]?[0-9]{2}$`

Each regex piece is a function from a remaining input to the list of
possible remainders after the piece, and `phoneRests` chains them; a full
match exists when some final remainder is empty.  This realises the
backtracking the regex engine performs on this pattern. -/

/-- The optional leading group `(\+?7|8)?`. -/
def phoneLead (cs : List Char) : List (List Char) :=
  [cs]
    ++ (match cs with | '+' :: '7' :: r => [r] | _ => [])
    ++ (match cs with
        | '7' :: r => [r]
        | '8' :: r => [r]
        | _ => [])

/-- The optional separator `[\s\-]?`. -/
def sepOpt (cs : List Char) : List (List Char) :=
  match cs with
  | c :: r => if pyIsSpace c || c = '-' then [cs, r] else [cs]
  | [] => [cs]

/-- An optional literal character (`\(?` and `\)?`). -/
def charOpt (ch : Char) (cs : List Char) : List (List Char) :=
  match cs with
  | c :: r => if c = ch then [cs, r] else [cs]
  | [] => [cs]

/-- Exactly `n` digits (`[0-9]{n}`). -/
def nDigits (n : Nat) (cs : List Char) : List (List Char) :=
  if (cs.take n).length = n && (cs.take n).all isAsciiDigit then [cs.drop n]
  else []

/-- All remainders after matching the whole phone pattern from the start. -/
def phoneRests (cs : List Char) : List (List Char) :=
  ((((((((((phoneLead cs).flatMap sepOpt).flatMap
      (charOpt '(')).flatMap
      (nDigits 3)).flatMap
      (charOpt ')')).flatMap
      sepOpt).flatMap
      (nDigits 3)).flatMap
      sepOpt).flatMap
      (nDigits 2)).flatMap
      sepOpt).flatMap
    (nDigits 2)

/-- `PHONE_PATTERN.match(l)` with the trailing `$`: some way of matching
consumes the entire input. -/
def phoneMatch (l : List Char) : Bool :=
  (phoneRests l).any List.isEmpty

/-- `is_valid_phone(text)`: match the pattern against the stripped text. -/
def is_valid_phone (text : String) : Bool :=
  phoneMatch (pyStripList text.data)

/-! ## Configuration (`config.py`) -/

/-- `CONTACT_SKIP_VALUES`: the inputs the contact step treats as "skip". -/
def CONTACT_SKIP_VALUES : List String :=
  ["нет", "-", ".", "пропустить", ""]

/-- `PRODUCT_LIST`: the editable product fields, in keyboard/merge order. -/
def PRODUCT_LIST : List String :=
  ["photo_file_id", "name", "weight", "description", "price"]

/-! ## Review/suggestion contact step
(`utils/suggestion_review_helpers.handle_contact_step`) -/

/-- The contact value that `handle_contact_step` passes to the save
function and the admin notification when `contact_required` is false (the
review flow): the stripped input, except that a (lowercased) match against
`CONTACT_SKIP_VALUES` is replaced by the placeholder string `Не указан`. -/
def handle_contact_step_contact (text : String) : String :=
  let contact := pyStrip text
  if CONTACT_SKIP_VALUES.contains (pyLower contact) then "Не указан"
  else contact

/-! ## Order quantity step
(`handlers/client_order_handlers.select_quantity`) -/

/-- Outcome of a text message in the `select_quantity` state. -/
inductive QuantityOutcome where
  | reprompt
  | advance (qty : Int)
  | raisesValueError
deriving DecidableEq

/-- `select_quantity`: strip the text; reject unless `is_positive_number`
holds and the text with dots removed is all digits; then `int(text)`, whose
failure propagates as `ValueError`. -/
def select_quantity (text : String) : QuantityOutcome :=
  let t := pyStrip text
  if !is_positive_number t || !pyIsDigit (t.data.filter (· ≠ '.')) then
    .reprompt
  else
    match pyIntOfString t with
    | some n => .advance n
    | none => .raisesValueError

/-! ## Add-product weight and price steps
(`handlers/admin.load_weight`, `handlers/admin.load_price`) -/

/-- Outcome of a text message in a numeric add-product step. -/
inductive NumericStepOutcome where
  | reprompt
  | stored (v : PyFloat)
  | raisesValueError
deriving DecidableEq

/-- Python's `round(x, 2)` on the decimal model: finite values are rounded
half-to-even at two decimal places, specials pass through.  (CPython rounds
the binary double; on the decimal reading of the literal this is the
half-even rule, and no claim depends on binary-representation corner
cases.) -/
def pyRound2 : PyFloat → PyFloat
  | .finite m e =>
    if -2 ≤ e then .finite m e
    else
      let d : Int := (10 : Int) ^ (-(e + 2)).toNat
      let q := Int.fdiv m d
      let r := m - q * d
      let q2 := if 2 * r < d then q else if d < 2 * r then q + 1
                else if q % 2 = 0 then q else q + 1
      .finite q2 (-2)
  | .inf => .inf
  | .ninf => .ninf
  | .nan => .nan

/-- `load_weight`: re-prompt unless `is_positive_number(message.text)`;
then store `float(message.text)` (the raw text, no comma replacement). -/
def load_weight (text : String) : NumericStepOutcome :=
  if !is_positive_number text then .reprompt
  else
    match pyFloatOfString text with
    | some v => .stored v
    | none => .raisesValueError

/-- `load_price`: re-prompt unless `is_positive_number(message.text)`;
then store `round(float(message.text), 2)` (raw text, no comma
replacement). -/
def load_price (text : String) : NumericStepOutcome :=
  if !is_positive_number text then .reprompt
  else
    match pyFloatOfString text with
    | some v => .stored (pyRound2 v)
    | none => .raisesValueError

/-! ## Store rows (`database.py` tables) -/

/-- A row of the `products` table.  `weight` and `price` are text columns
that the handlers only ever fill with Python floats; they are modelled by
their numeric value.  `photo_file_id` is nullable. -/
structure Product where
  id : Nat
  name : String
  weight : ℚ
  description : String
  price : ℚ
  photo_file_id : Option String
deriving DecidableEq

/-- A row of the `reviews` table (`created_at` as an abstract timestamp). -/
structure Review where
  id : Nat
  text : String
  contact : Option String
  photo_file_id : Option String
  user_id : Nat
  product_id : Nat
  created_at : Nat
deriving DecidableEq

/-- A row of the `orders` table, restricted to the columns the order flow
writes.  `product_id` is nullable because of `ON DELETE SET NULL`. -/
structure OrderRec where
  user_id : Nat
  product_id : Option Nat
  product_name : String
  quantity : Int
  price_per_unit : ℚ
  total_price : ℚ
deriving DecidableEq

/-- `save_product(product_data)`: `UPDATE` in place when a truthy `id` is
present, else `INSERT` (the fresh serial id the insert would receive is not
modelled; every claim below goes through the update path). -/
def save_product (p : Product) (db : List Product) : List Product :=
  if p.id ≠ 0 then db.map (fun q => if q.id = p.id then p else q)
  else db ++ [p]

/-- `delete_product(product_id)`. -/
def delete_product (pid : Nat) (db : List Product) : List Product :=
  db.filter (fun p => p.id ≠ pid)

/-- Insertion of one review into a list kept in `created_at`-descending
order (`ORDER BY created_at DESC`; ties in an unspecified order). -/
def insertByCreatedDesc (r : Review) : List Review → List Review
  | [] => [r]
  | x :: xs =>
    if r.created_at ≤ x.created_at then x :: insertByCreatedDesc r xs
    else r :: x :: xs

/-- `ORDER BY created_at DESC` as a sort. -/
def sortByCreatedDesc : List Review → List Review
  | [] => []
  | r :: rs => insertByCreatedDesc r (sortByCreatedDesc rs)

/-- `get_reviews_for_product_paginated(product_id, page, per_page)`:
`OFFSET (page-1)*per_page` and `LIMIT per_page` over the product's reviews
newest-first, plus the product's total review count.  A negative offset is a
PostgreSQL error (`OFFSET must not be negative`), surfaced as `.error`;
no clamping happens here. -/
def get_reviews_for_product_paginated (db : List Review) (product_id : Nat)
    (page : Int) (per_page : Nat := 3) : Except String (List Review × Nat) :=
  let offset : Int := (page - 1) * per_page
  let matching := db.filter (fun r => r.product_id = product_id)
  if offset < 0 then .error "OFFSET must not be negative"
  else .ok (((sortByCreatedDesc matching).drop offset.toNat).take per_page,
            matching.length)

/-! ## Review pagination keyboard (`keyboards/client_kb.get_reviews_pagination_kb`) -/

/-- `total_pages = (total_reviews + per_page - 1) // per_page or 1`. -/
def kb_total_pages (total_reviews per_page : Nat) : Nat :=
  let tp := (total_reviews + per_page - 1) / per_page
  if tp = 0 then 1 else tp

/-- `page = max(1, min(page, total_pages))`: the page number the keyboard
actually displays and navigates from. -/
def kb_clamped_page (page : Int) (total_reviews : Nat) (per_page : Nat := 3) : Int :=
  max 1 (min page (kb_total_pages total_reviews per_page : Int))

/-! ## Edit-product field selection
(`keyboards/admin_kb.get_edit_field_kb`, `handlers/admin.edit_field_selected`) -/

/-- The per-field states of `FSMAdminEdit` reachable from field selection. -/
inductive AdminEditState where
  | editing_photo
  | editing_name
  | editing_weight
  | editing_description
  | editing_price
deriving DecidableEq

/-- `field_to_state`: the handler's field-name-to-state table. -/
def field_to_state : List (String × AdminEditState) :=
  [("photo_file_id", .editing_photo),
   ("name", .editing_name),
   ("weight", .editing_weight),
   ("description", .editing_description),
   ("price", .editing_price)]

/-- The callback tokens the edit-field keyboard emits for its field
buttons: `edit_field_<field>` for each entry of `PRODUCT_LIST` (the
keyboard also emits `edit_done` for the finish button). -/
def get_edit_field_kb_callbacks : List String :=
  PRODUCT_LIST.map (fun field => "edit_field_" ++ field)

/-- `edit_field_selected(callback)`: take `callback.data.split('_')[-1]` as
the field name and look it up in `field_to_state`; `some st` means the
session moves to `st` and the value prompt is sent, `none` means the
`Недопустимое поле` rejection with no state change. -/
def edit_field_selected (callback_data : String) : Option AdminEditState :=
  let field : String := ⟨(splitOnChar '_' callback_data.data).getLastD []⟩
  field_to_state.lookup field

/-! ## Edit-product finish (`handlers/admin.finish_editing`) -/

/-- The shadow `new_<field>` values an edit session may hold, plus the
selected product id (`data.get(...)`: `none` models an absent key). -/
structure EditSession where
  product_id : Option Nat
  new_photo_file_id : Option String
  new_name : Option String
  new_weight : Option ℚ
  new_description : Option String
  new_price : Option ℚ
deriving DecidableEq

/-- True when any `new_<field>` key is present — exactly the handler's
`updated` flag after its merge loop. -/
def anyShadow (s : EditSession) : Bool :=
  s.new_photo_file_id.isSome || s.new_name.isSome || s.new_weight.isSome
    || s.new_description.isSome || s.new_price.isSome

/-- The merged `updated_data` row: `{'id': product_id}` plus, per field of
`PRODUCT_LIST`, the shadow value when present, else the current stored
value. -/
def mergeShadows (pid : Nat) (s : EditSession) (current : Product) : Product :=
  { id := pid
    name := s.new_name.getD current.name
    weight := s.new_weight.getD current.weight
    description := s.new_description.getD current.description
    price := s.new_price.getD current.price
    photo_file_id :=
      match s.new_photo_file_id with
      | some v => some v
      | none => current.photo_file_id }

/-- Outcome of the `edit_done` callback. -/
inductive FinishOutcome where
  | staleSession
  | productNotFound
  | saved (merged : Product)
  | noChanges
deriving DecidableEq

/-- `finish_editing`: look the product up again in the store, merge the
shadow values over it, and call `save_product` only when the `updated` flag
is set; `if not product_id` also treats a (falsy) id 0 as a stale
session. -/
def finish_editing (sess : EditSession) (db : List Product) :
    FinishOutcome × List Product :=
  match sess.product_id with
  | none => (.staleSession, db)
  | some pid =>
    if pid = 0 then (.staleSession, db)
    else
      match db.find? (fun p => p.id = pid) with
      | none => (.productNotFound, db)
      | some current =>
        if anyShadow sess then
          let merged := mergeShadows pid sess current
          (.saved merged, save_product merged db)
        else (.noChanges, db)

/-! ## Order confirmation (`handlers/client_order_handlers.confirm_order`) -/

/-- A pickup point held in the order session. -/
structure Pvz where
  code : String
  name : String
  address : Option String
  address_comment : Option String
deriving DecidableEq

/-- The order FSM's session dictionary (`none` models an absent key, as
after `state.clear()`). -/
structure OrderSession where
  product_id : Option Nat
  quantity : Option Int
  selected_pvz : Option Pvz
  phone : Option String
  city : Option String
deriving DecidableEq

/-- The session dictionary after `state.clear()`. -/
def emptyOrderSession : OrderSession :=
  ⟨none, none, none, none, none⟩

/-- The store the order flow touches: the `products` and `orders` tables. -/
structure World where
  products : List Product
  orders : List OrderRec
deriving DecidableEq

/-- Modelled from the spec: `save_order` is imported by the order handlers
from the database module, but its definition is absent from
`src/database.py`; the spec's store contract (`recordOrder(order)`, §4.4)
and the `orders` table layout (§6) say it persists one order row with the
given fields.  Modelled as appending that row. -/
def save_order (user_id : Nat) (product_id : Nat) (product_name : String)
    (quantity : Int) (price_per_unit total_price : ℚ) (w : World) : World :=
  { w with
    orders := w.orders ++
      [⟨user_id, some product_id, product_name, quantity, price_per_unit,
        total_price⟩] }

/-- Outcome of the `order_confirm` callback.  `raisesKeyError k` models the
uncaught `KeyError` on `data[k]`; the handler is registered without a state
filter, so it runs whatever state the session is in. -/
inductive ConfirmOutcome where
  | raisesKeyError (key : String)
  | abortProductNotFound
  | ordered (o : OrderRec)
deriving DecidableEq

/-- `confirm_order`, step for step: read `data['selected_pvz']`; resolve
the product (`next(...)` on an empty product table raises `StopIteration`,
which the handler catches and turns into the not-found abort, and otherwise
the generator's predicate reads `data['product_id']`; the source compares
`str(p['id']) == str(data['product_id'])`, which on integer ids coincides
with id equality); read `data['quantity']`; compute
`total_price = price_per_unit * quantity` from the product's price read
now; `save_order`; then build the admin notification, which reads
`data['city']` — only after the save. -/
def confirm_order (user_id : Nat) (data : OrderSession) (w : World) :
    ConfirmOutcome × World :=
  match data.selected_pvz with
  | none => (.raisesKeyError "selected_pvz", w)
  | some _ =>
    match w.products with
    | [] => (.abortProductNotFound, w)
    | _ :: _ =>
      match data.product_id with
      | none => (.raisesKeyError "product_id", w)
      | some pid =>
        match w.products.find? (fun p => p.id = pid) with
        | none => (.abortProductNotFound, w)
        | some product =>
          match data.quantity with
          | none => (.raisesKeyError "quantity", w)
          | some qty =>
            let price_per_unit := product.price
            let total_price := price_per_unit * (qty : ℚ)
            let w2 := save_order user_id product.id product.name qty
              price_per_unit total_price w
            match data.city with
            | none => (.raisesKeyError "city", w2)
            | some _ =>
              (.ordered ⟨user_id, some product.id, product.name, qty,
                 price_per_unit, total_price⟩, w2)

/-! ## Later catalog operations, for the order-snapshot claim -/

/-- A later mutation of the product catalog: an insert/update through
`save_product`, or a `delete_product` (whose `ON DELETE SET NULL` foreign
key nulls the `product_id` of referencing orders). -/
inductive ProductOp where
  | save (p : Product)
  | del (pid : Nat)
deriving DecidableEq

/-- Apply one catalog mutation to the store. -/
def apply_product_op (w : World) : ProductOp → World
  | .save p => { w with products := save_product p w.products }
  | .del pid =>
    { products := delete_product pid w.products
      orders := w.orders.map (fun o =>
        if o.product_id = some pid then { o with product_id := none } else o) }

/-- Apply a sequence of catalog mutations. -/
def apply_product_ops (w : World) (ops : List ProductOp) : World :=
  ops.foldl apply_product_op w

/-- The money-relevant columns of an order row: everything except the
nullable foreign key. -/
def order_money_view (o : OrderRec) : Nat × String × Int × ℚ × ℚ :=
  (o.user_id, o.product_name, o.quantity, o.price_per_unit, o.total_price)

/-! ## Review FSM stale-state guard (`handlers/client.select_review_product`) -/

/-- The states of the review FSM. -/
inductive ReviewState where
  | select_product
  | text
  | photo
  | contact
deriving DecidableEq

/-- Outcome of a `review_product_<id>` callback. -/
inductive SelectReviewOutcome where
  | ignored
  | invalidSelection
  | advance (product_id : Int)
deriving DecidableEq

/-- `select_review_product`: if the session is not in the
`select_product` state (including no active state at all) the callback is
acknowledged and ignored; otherwise `int(callback.data.split('_')[-1])` is
stored and the session advances to the text step, a parse failure being the
`Некорректный выбор товара` alert with no state change. -/
def select_review_product (state : Option ReviewState) (callback_data : String) :
    SelectReviewOutcome :=
  if state ≠ some .select_product then .ignored
  else
    match pyIntOfString ⟨(splitOnChar '_' callback_data.data).getLastD []⟩ with
    | some n => .advance n
    | none => .invalidSelection

/-! ## Helper lemmas -/

/-- An English letter (either case), for the phone test vectors. -/
def isEnglishLetter (c : Char) : Bool :=
  (97 ≤ c.toNat && c.toNat ≤ 122) || (65 ≤ c.toNat && c.toNat ≤ 90)

lemma not_digit_of_letter {c : Char} (h : isEnglishLetter c = true) :
    isAsciiDigit c = false := by
  simp [isEnglishLetter, isAsciiDigit] at *
  omega

lemma mem_pyStripList {c : Char} {l : List Char} (h : c ∈ pyStripList l) :
    c ∈ l := by
  unfold pyStripList at h
  rw [List.mem_reverse] at h
  have h2 := (List.dropWhile_sublist _).subset h
  rw [List.mem_reverse] at h2
  exact (List.dropWhile_sublist _).subset h2

lemma suffix_of_mem_phoneLead {cs r : List Char} (h : r ∈ phoneLead cs) :
    r <:+ cs := by
  unfold phoneLead at h
  simp only [List.mem_append, List.mem_singleton] at h
  rcases h with (h | h) | h
  · exact h ▸ List.suffix_refl cs
  · split at h
    · simp only [List.mem_singleton] at h
      subst h
      exact ⟨['+', '7'], rfl⟩
    · simp at h
  · split at h
    · simp only [List.mem_singleton] at h
      subst h
      exact ⟨['7'], rfl⟩
    · simp only [List.mem_singleton] at h
      subst h
      exact ⟨['8'], rfl⟩
    · simp at h

lemma suffix_of_mem_sepOpt {cs r : List Char} (h : r ∈ sepOpt cs) : r <:+ cs := by
  unfold sepOpt at h
  cases cs with
  | nil => simp at h; exact h ▸ List.suffix_refl []
  | cons c t =>
    by_cases hc : pyIsSpace c || c = '-'
    · simp [hc] at h
      rcases h with h | h
      · exact h ▸ List.suffix_refl _
      · exact h ▸ ⟨[c], rfl⟩
    · simp [hc] at h
      exact h ▸ List.suffix_refl _

lemma suffix_of_mem_charOpt {ch : Char} {cs r : List Char}
    (h : r ∈ charOpt ch cs) : r <:+ cs := by
  unfold charOpt at h
  cases cs with
  | nil => simp at h; exact h ▸ List.suffix_refl []
  | cons c t =>
    have h2 : r ∈ if c = ch then [c :: t, t] else [c :: t] := h
    by_cases hc : c = ch
    · rw [if_pos hc] at h2
      simp only [List.mem_cons, List.mem_singleton, List.not_mem_nil,
        or_false] at h2
      rcases h2 with h2 | h2
      · exact h2 ▸ List.suffix_refl _
      · exact h2 ▸ ⟨[c], rfl⟩
    · rw [if_neg hc] at h2
      simp only [List.mem_singleton] at h2
      exact h2 ▸ List.suffix_refl _

lemma nDigits_nil_of_no_digit {n : Nat} {l cs : List Char} (hn : 0 < n)
    (hl : ∀ c ∈ l, isAsciiDigit c = false) (hs : cs <:+ l) :
    nDigits n cs = [] := by
  unfold nDigits
  cases cs with
  | nil =>
    have ht : ([] : List Char).take n = [] := by simp
    simp [ht]
    omega
  | cons c t =>
    have hc : c ∈ l := hs.subset (List.mem_cons_self c t)
    obtain ⟨m, rfl⟩ := Nat.exists_eq_succ_of_ne_zero (Nat.pos_iff_ne_zero.1 hn)
    simp [List.take_succ_cons, hl c hc]

lemma phoneRests_nil_of_no_digit {l : List Char}
    (hl : ∀ c ∈ l, isAsciiDigit c = false) : phoneRests l = [] := by
  have h3 : (((phoneLead l).flatMap sepOpt).flatMap
      (charOpt '(')).flatMap (nDigits 3) = [] := by
    rw [List.eq_nil_iff_forall_not_mem]
    intro r hr
    rw [List.mem_flatMap] at hr
    obtain ⟨x, hx, hrx⟩ := hr
    rw [List.mem_flatMap] at hx
    obtain ⟨y, hy, hxy⟩ := hx
    rw [List.mem_flatMap] at hy
    obtain ⟨z, hz, hyz⟩ := hy
    have hzs : z <:+ l := suffix_of_mem_phoneLead hz
    have hys : y <:+ l := (suffix_of_mem_sepOpt hyz).trans hzs
    have hxs : x <:+ l := (suffix_of_mem_charOpt hxy).trans hys
    rw [nDigits_nil_of_no_digit (by omega) hl hxs] at hrx
    exact (List.not_mem_nil r) hrx
  unfold phoneRests
  rw [h3]
  rfl

/-! ## Claim theorems -/

/-- Claim C8: the positive-number validator accepts `"500"`, `"299.50"` and
`"3,5"` (comma read as a decimal separator) and rejects `"-5"`, `"0"`,
`"abc"` and the empty string. -/
theorem positive_number_validator_vectors :
    is_positive_number "500" = true ∧
    is_positive_number "299.50" = true ∧
    is_positive_number "3,5" = true ∧
    is_positive_number "-5" = false ∧
    is_positive_number "0" = false ∧
    is_positive_number "abc" = false ∧
    is_positive_number "" = false := by
  decide

/-- Claim C9: the phone validator accepts `"+7 999 123-45-67"`, `"8(999)1234567"`
and `"79991234567"`, and rejects `"12345"`, the empty string, and every
string made of (English) letters. -/
theorem phone_validator_vectors :
    is_valid_phone "+7 999 123-45-67" = true ∧
    is_valid_phone "8(999)1234567" = true ∧
    is_valid_phone "79991234567" = true ∧
    is_valid_phone "12345" = false ∧
    is_valid_phone "" = false ∧
    (∀ s : String, s.data.all isEnglishLetter = true →
      is_valid_phone s = false) := by
  refine ⟨by decide, by decide, by decide, by decide, by decide, ?_⟩
  intro s hs
  unfold is_valid_phone phoneMatch
  have hl : ∀ c ∈ pyStripList s.data, isAsciiDigit c = false := by
    intro c hc
    exact not_digit_of_letter (List.all_eq_true.1 hs c (mem_pyStripList hc))
  rw [phoneRests_nil_of_no_digit hl]
  rfl

/-- Witness for C9: the letters clause applied at the concrete string
`"abc"`. -/
theorem phone_validator_vectors_witness :
    is_valid_phone "abc" = false :=
  phone_validator_vectors.2.2.2.2.2 "abc" (by decide)

/-- Claim C10: the positive-number validator also accepts non-numeral strings:
`"inf"`, `"Infinity"` and `"1e3"` all validate, the price step stores them
(`round(float(text), 2)`), the weight step stores them, and in general the
validator accepts exactly the nonempty strings whose comma-to-dot
normalisation parses as a float greater than zero. -/
theorem positive_number_validator_nonnumerals :
    is_positive_number "inf" = true ∧
    is_positive_number "Infinity" = true ∧
    is_positive_number "1e3" = true ∧
    load_price "inf" = .stored .inf ∧
    load_price "Infinity" = .stored .inf ∧
    load_price "1e3" = .stored (.finite 1 3) ∧
    load_weight "inf" = .stored .inf ∧
    (∀ s : String, is_positive_number s = true ↔
      (s.data ≠ [] ∧ ∃ v, pyFloatOfString (commaToDot (pyStrip s)) = some v ∧
        v.isPos = true)) := by
  refine ⟨by decide, by decide, by decide, by decide, by decide, by decide,
    by decide, ?_⟩
  intro s
  unfold is_positive_number
  by_cases he : s.data.isEmpty
  · have hd : s.data = [] := List.isEmpty_iff.1 he
    simp [he, hd]
  · simp only [he, if_false]
    have hne : s.data ≠ [] := fun h => he (List.isEmpty_iff.2 h)
    cases hp : pyFloatOfString (commaToDot (pyStrip s)) with
    | none => simp [hp, hne]
    | some v =>
      simp only [hp, hne, ne_eq, not_false_eq_true, true_and]
      constructor
      · intro hv
        exact ⟨v, rfl, hv⟩
      · rintro ⟨w, hw, hwpos⟩
        cases hw
        exact hwpos

/-- Claim C1: in the `select_quantity` state, decimal input such as `"3.5"` is
not rejected: it passes the handler's guard (the validator accepts it and
removing dots leaves only digits) and then `int(text)` raises an uncaught
`ValueError`; non-positive and non-numeric inputs are re-prompted, and a
positive integer advances with the parsed quantity. -/
theorem select_quantity_decimal_raises :
    select_quantity "3.5" = .raisesValueError ∧
    select_quantity "0" = .reprompt ∧
    select_quantity "-2" = .reprompt ∧
    select_quantity "abc" = .reprompt ∧
    select_quantity "3,5" = .reprompt ∧
    select_quantity "7" = .advance 7 := by
  decide

/-- Claim C4: the edit-field keyboard offers exactly the five callbacks
`edit_field_<field>` for the fields of `PRODUCT_LIST`, and four of them
enter the corresponding edit state, but the photo button's token
`edit_field_photo_file_id` is rejected as an invalid field: the handler
keeps only the part after the last underscore (`"id"`), which is not a key
of `field_to_state`. -/
theorem edit_field_photo_button_rejected :
    get_edit_field_kb_callbacks =
      ["edit_field_photo_file_id", "edit_field_name", "edit_field_weight",
       "edit_field_description", "edit_field_price"] ∧
    edit_field_selected "edit_field_photo_file_id" = none ∧
    edit_field_selected "edit_field_name" = some .editing_name ∧
    edit_field_selected "edit_field_weight" = some .editing_weight ∧
    edit_field_selected "edit_field_description" = some .editing_description ∧
    edit_field_selected "edit_field_price" = some .editing_price := by
  decide

/-- Claim C2: a stale `order_confirm` callback is not a no-op:
`confirm_order` is registered without a state filter, and on a cleared
session it raises `KeyError('selected_pvz')` (for any product table, since
the session read precedes the product lookup); by contrast
`select_review_product`, which checks the state explicitly, does ignore a
callback arriving in any other state. -/
theorem stale_order_confirm_raises :
    (∀ (uid : Nat) (w : World),
      confirm_order uid emptyOrderSession w =
        (.raisesKeyError "selected_pvz", w)) ∧
    (∀ d : String,
      select_review_product none d = .ignored ∧
      select_review_product (some .text) d = .ignored ∧
      select_review_product (some .photo) d = .ignored ∧
      select_review_product (some .contact) d = .ignored) := by
  constructor
  · intro uid w
    rfl
  · intro d
    refine ⟨?_, ?_, ?_, ?_⟩ <;> rfl

/-! ## C7: the contact skip values -/

/-- Claim C7 counterexample: the configured skip values are the Russian words
`нет`/`пропустить` (with `-`, `.` and the empty string), not the English
`"none"`/`"skip"` the claim lists; so `"skip"` and `"none"` are stored
verbatim, and even a matching input such as `"нет"` records the contact as
the placeholder string `Не указан`, not as an absent value. -/
theorem contact_skip_values_not_english :
    handle_contact_step_contact "skip" = "skip" ∧
    handle_contact_step_contact "none" = "none" ∧
    CONTACT_SKIP_VALUES = ["нет", "-", ".", "пропустить", ""] ∧
    ("skip" ∈ CONTACT_SKIP_VALUES → False) ∧
    ("none" ∈ CONTACT_SKIP_VALUES → False) ∧
    handle_contact_step_contact "нет" = "Не указан" := by
  decide

/-- Claim C7 amended: in the review FSM's contact step, an input whose stripped,
lowercased form is one of the configured skip values (`нет`, `-`, `.`,
`пропустить`, or the empty string) records the contact as the placeholder
string `Не указан`; every other input is stored as its
whitespace-stripped text. -/
theorem contact_step_amended :
    ∀ s : String,
      (pyLower (pyStrip s) ∈ CONTACT_SKIP_VALUES →
        handle_contact_step_contact s = "Не указан") ∧
      (pyLower (pyStrip s) ∉ CONTACT_SKIP_VALUES →
        handle_contact_step_contact s = pyStrip s) := by
  intro s
  simp only [handle_contact_step_contact]
  constructor
  · intro h
    have hc : CONTACT_SKIP_VALUES.contains (pyLower (pyStrip s)) = true :=
      List.elem_eq_true_of_mem h
    rw [hc]
    rfl
  · intro h
    have hc : CONTACT_SKIP_VALUES.contains (pyLower (pyStrip s)) = false := by
      simp [List.contains]
      exact h
    rw [hc]
    rfl

/-- Witness for C7: a case-insensitive skip match (`" НеТ "`) becomes the
placeholder and a regular contact is stored stripped. -/
theorem contact_step_amended_witness :
    handle_contact_step_contact " НеТ " = "Не указан" ∧
    handle_contact_step_contact "@user" = "@user" :=
  ⟨(contact_step_amended " НеТ ").1 (by decide),
   (contact_step_amended "@user").2 (by decide)⟩

/-! ## C3: review pagination -/

/-- A one-review table for the pagination counterexample. -/
def sample_review_db : List Review :=
  [⟨1, "ok", none, none, 10, 1, 5⟩]

/-- Claim C3 counterexample: with one review (so totalPages = 1), the paged
query itself does not clamp out-of-range pages: page 0 produces a negative
`OFFSET` and fails, and page 2 returns the empty page, exactly what the
claim says does not happen; the clamping lives only in the keyboard
builder. -/
theorem paged_reviews_query_does_not_clamp :
    get_reviews_for_product_paginated sample_review_db 1 0 3 =
      .error "OFFSET must not be negative" ∧
    get_reviews_for_product_paginated sample_review_db 1 2 3 = .ok ([], 1) ∧
    kb_total_pages 1 3 = 1 ∧
    kb_clamped_page 0 1 3 = 1 ∧
    kb_clamped_page 2 1 3 = 1 ∧
    get_reviews_for_product_paginated sample_review_db 1 1 3 =
      .ok (sample_review_db, 1) := by
  refine ⟨by rfl, by rfl, by decide, by decide, by decide, by rfl⟩

lemma kb_total_pages_pos (t pp : Nat) : 1 ≤ kb_total_pages t pp := by
  simp only [kb_total_pages]
  by_cases h : (t + pp - 1) / pp = 0
  · rw [if_pos h]
  · rw [if_neg h]
    exact Nat.pos_of_ne_zero h

lemma kb_total_pages_ceil (t p : Nat) (hp : 0 < p) :
    (kb_total_pages t p - 1) * p < max t 1 ∧
      max t 1 ≤ kb_total_pages t p * p := by
  simp only [kb_total_pages]
  rcases Nat.eq_zero_or_pos t with rfl | ht
  · have h0 : (0 + p - 1) / p = 0 := Nat.div_eq_of_lt (by omega)
    rw [h0]
    simp
    omega
  · have hne : ¬((t + p - 1) / p = 0) := by
      have : 1 ≤ (t + p - 1) / p := by
        rw [Nat.le_div_iff_mul_le hp]
        omega
      omega
    rw [if_neg hne]
    have hmax : max t 1 = t := Nat.max_eq_left ht
    rw [hmax, Nat.sub_mul, one_mul]
    have hub : (t + p - 1) / p * p ≤ t + p - 1 := Nat.div_mul_le_self _ _
    have hlb : t + p - 1 < ((t + p - 1) / p + 1) * p :=
      (Nat.div_lt_iff_lt_mul hp).1 (Nat.lt_succ_self _)
    rw [Nat.add_mul, one_mul] at hlb
    generalize hB : (t + p - 1) / p * p = B at hub hlb ⊢
    omega

/-- Claim C3 amended: for a requested page ≥ 1 the query returns at most
`per_page` reviews together with the product's total review count; the
clamping of a requested page into `[1, totalPages]`, with
`totalPages = ceil(total/perPage)` floored at 1, is performed by the
pagination keyboard builder (`get_reviews_pagination_kb`), not by the
query, which errors on page 0 (negative `OFFSET`) and returns an empty
page beyond `totalPages`. -/
theorem paged_reviews_amended :
    ∀ (db : List Review) (pid : Nat) (page : Int) (per_page : Nat),
      0 < per_page →
      (1 ≤ page →
        ∃ l, get_reviews_for_product_paginated db pid page per_page =
            .ok (l, (db.filter (fun r => r.product_id = pid)).length) ∧
          l.length ≤ per_page) ∧
      (∀ total : Nat,
        1 ≤ kb_clamped_page page total per_page ∧
        kb_clamped_page page total per_page ≤
          (kb_total_pages total per_page : Int) ∧
        (kb_total_pages total per_page - 1) * per_page < max total 1 ∧
        max total 1 ≤ kb_total_pages total per_page * per_page ∧
        (1 ≤ page → page ≤ (kb_total_pages total per_page : Int) →
          kb_clamped_page page total per_page = page)) := by
  intro db pid page per_page hpp
  constructor
  · intro hpage
    simp only [get_reviews_for_product_paginated]
    have hoff : ¬((page - 1) * (per_page : Int) < 0) := by
      have h1 : (0 : Int) ≤ page - 1 := by omega
      have h2 : (0 : Int) ≤ (per_page : Int) := Int.natCast_nonneg per_page
      have := mul_nonneg h1 h2
      omega
    simp only [hoff, if_false]
    exact ⟨_, rfl, List.length_take_le _ _⟩
  · intro total
    have htp := kb_total_pages_pos total per_page
    have hceil := kb_total_pages_ceil total per_page hpp
    refine ⟨le_max_left 1 _, ?_, hceil.1, hceil.2, ?_⟩
    · apply max_le
      · exact_mod_cast htp
      · exact min_le_right _ _
    · intro h1 h2
      unfold kb_clamped_page
      rw [min_eq_left h2, max_eq_right h1]

/-- Witness for C3: the amended theorem applied to the one-review table at
page 1 (query clause) and page 0 (keyboard clamp clause). -/
theorem paged_reviews_amended_witness :
    sample_review_db.length ≤ 3 ∧
    1 ≤ kb_clamped_page 0 1 3 ∧
    kb_clamped_page 0 1 3 ≤ (kb_total_pages 1 3 : Int) := by
  obtain ⟨hq, _⟩ := paged_reviews_amended sample_review_db 1 1 3 (by decide)
  obtain ⟨l, hl, hlen⟩ := hq (by decide)
  have heval : get_reviews_for_product_paginated sample_review_db 1 1 3 =
      .ok (sample_review_db, 1) := rfl
  rw [heval] at hl
  injection hl with hpair
  have hfst : sample_review_db = l := congrArg Prod.fst hpair
  rw [← hfst] at hlen
  obtain ⟨_, hkb⟩ := paged_reviews_amended sample_review_db 1 0 3 (by decide)
  exact ⟨hlen, (hkb 1).1, (hkb 1).2.1⟩

/-! ## C5: edit-product merge and write condition -/

/-- A stored product for the write-without-change counterexample. -/
def edit_current_product : Product :=
  ⟨7, "Да Хун Пао", 500, "улун", 1200, some "file1"⟩

/-- An edit session whose only shadow value re-enters the product's
existing name unchanged. -/
def edit_session_same_name : EditSession :=
  ⟨some 7, none, some "Да Хун Пао", none, none, none⟩

/-- Claim C5 counterexample: a shadow value equal to the original makes the
merged product identical to the stored one — no field changed — yet
`finish_editing` still reports a save and calls `save_product` (the
`updated` flag tracks shadow presence, not value change). -/
theorem finish_editing_writes_without_change :
    mergeShadows 7 edit_session_same_name edit_current_product =
      edit_current_product ∧
    finish_editing edit_session_same_name [edit_current_product] =
      (.saved edit_current_product, [edit_current_product]) := by
  constructor <;> rfl

/-- Claim C5 amended: on `edit_done`, when the product is still present, the
persisted row is the current stored product with exactly the shadowed
fields replacing the originals (each field without a shadow value keeps
its stored value), the update touches only that product's row, and a write
occurs iff at least one shadow value is present in the session — even when
that value equals the original; with no shadow present no write occurs. -/
theorem finish_editing_amended :
    ∀ (sess : EditSession) (db : List Product) (pid : Nat) (current : Product),
      sess.product_id = some pid → pid ≠ 0 →
      db.find? (fun p => p.id = pid) = some current →
      (anyShadow sess = true →
        finish_editing sess db =
          (.saved (mergeShadows pid sess current),
           db.map (fun q =>
             if q.id = pid then mergeShadows pid sess current else q))) ∧
      (anyShadow sess = false →
        finish_editing sess db = (.noChanges, db)) ∧
      (sess.new_name = none →
        (mergeShadows pid sess current).name = current.name) ∧
      (∀ v, sess.new_name = some v →
        (mergeShadows pid sess current).name = v) ∧
      (sess.new_weight = none →
        (mergeShadows pid sess current).weight = current.weight) ∧
      (∀ v, sess.new_weight = some v →
        (mergeShadows pid sess current).weight = v) ∧
      (sess.new_description = none →
        (mergeShadows pid sess current).description = current.description) ∧
      (∀ v, sess.new_description = some v →
        (mergeShadows pid sess current).description = v) ∧
      (sess.new_price = none →
        (mergeShadows pid sess current).price = current.price) ∧
      (∀ v, sess.new_price = some v →
        (mergeShadows pid sess current).price = v) ∧
      (sess.new_photo_file_id = none →
        (mergeShadows pid sess current).photo_file_id =
          current.photo_file_id) ∧
      (∀ v, sess.new_photo_file_id = some v →
        (mergeShadows pid sess current).photo_file_id = some v) := by
  intro sess db pid current hpid hpid0 hfind
  refine ⟨?_, ?_, ?_, ?_, ?_, ?_, ?_, ?_, ?_, ?_, ?_, ?_⟩
  · intro hsh
    simp only [finish_editing, hpid]
    rw [if_neg hpid0]
    simp only [hfind, hsh, if_true]
    simp [save_product, mergeShadows, hpid0]
  · intro hsh
    simp only [finish_editing, hpid]
    rw [if_neg hpid0]
    simp only [hfind, hsh]
    rfl
  · intro h; simp [mergeShadows, h]
  · intro v h; simp [mergeShadows, h]
  · intro h; simp [mergeShadows, h]
  · intro v h; simp [mergeShadows, h]
  · intro h; simp [mergeShadows, h]
  · intro v h; simp [mergeShadows, h]
  · intro h; simp [mergeShadows, h]
  · intro v h; simp [mergeShadows, h]
  · intro h; simp [mergeShadows, h]
  · intro v h; simp [mergeShadows, h]

/-- A stored product for the C5 witness. -/
def edit_witness_product : Product :=
  ⟨9, "Шу Пуэр", 357, "блин", 800, none⟩

/-- An edit session shadowing only the price. -/
def edit_witness_session : EditSession :=
  ⟨some 9, none, none, none, none, some 999⟩

/-- Witness for C5: the save clause of the amended theorem at a concrete
session with one shadowed field. -/
theorem finish_editing_amended_witness :
    finish_editing edit_witness_session [edit_witness_product] =
      (.saved (mergeShadows 9 edit_witness_session edit_witness_product),
       [mergeShadows 9 edit_witness_session edit_witness_product]) := by
  have h := (finish_editing_amended edit_witness_session [edit_witness_product]
    9 edit_witness_product rfl (by decide) rfl).1 rfl
  exact h

/-! ## C6: order totals are a snapshot -/

lemma money_view_apply_op (w : World) (op : ProductOp) :
    ((apply_product_op w op).orders).map order_money_view =
      w.orders.map order_money_view := by
  cases op with
  | save p => rfl
  | del pid =>
    simp only [apply_product_op, List.map_map]
    apply List.map_congr_left
    intro o _
    by_cases h : o.product_id = some pid <;> simp [h, order_money_view]

lemma money_view_apply_ops (ops : List ProductOp) :
    ∀ w : World, ((apply_product_ops w ops).orders).map order_money_view =
      w.orders.map order_money_view := by
  induction ops with
  | nil => intro w; rfl
  | cons op rest ih =>
    intro w
    simp only [apply_product_ops, List.foldl_cons] at *
    exact (ih (apply_product_op w op)).trans (money_view_apply_op w op)

/-- Claim C6: a confirmed order stores `total_price = price_per_unit * quantity`
with `price_per_unit` the product's price as read at confirmation time,
appended to the orders table; and any later sequence of product saves and
deletions leaves every order's name, quantity, unit price and total
untouched (a deletion only nulls the foreign key). -/
theorem order_total_price_snapshot :
    ∀ (uid : Nat) (data : OrderSession) (w : World) (pvz : Pvz) (pid : Nat)
      (qty : Int) (city : String) (product : Product),
      data.selected_pvz = some pvz →
      data.product_id = some pid →
      data.quantity = some qty →
      data.city = some city →
      w.products.find? (fun p => p.id = pid) = some product →
      ∃ o w2, confirm_order uid data w = (.ordered o, w2) ∧
        o.total_price = o.price_per_unit * (o.quantity : ℚ) ∧
        o.price_per_unit = product.price ∧
        o.quantity = qty ∧
        o.product_name = product.name ∧
        w2.products = w.products ∧
        w2.orders = w.orders ++ [o] ∧
        ∀ ops : List ProductOp,
          ((apply_product_ops w2 ops).orders).map order_money_view =
            w2.orders.map order_money_view := by
  intro uid data w pvz pid qty city product hpvz hpid hqty hcity hfind
  obtain ⟨p0, ps, hw⟩ : ∃ p0 ps, w.products = p0 :: ps := by
    cases hwp : w.products with
    | nil => rw [hwp] at hfind; simp at hfind
    | cons a l => exact ⟨a, l, rfl⟩
  refine ⟨⟨uid, some product.id, product.name, qty, product.price,
    product.price * (qty : ℚ)⟩,
    ⟨w.products, w.orders ++ [⟨uid, some product.id, product.name, qty,
      product.price, product.price * (qty : ℚ)⟩]⟩,
    ?_, rfl, rfl, rfl, rfl, rfl, rfl, fun ops => money_view_apply_ops ops _⟩
  simp only [confirm_order, hpvz, hpid, hqty, hcity, hw, save_order]
  rw [← hw, hfind]

/-- Witness for C6: a concrete confirmed order (product 3 at price 300,
quantity 2) appends exactly one order row. -/
theorem order_total_price_snapshot_witness :
    ((confirm_order 42
        (⟨some 3, some 2,
          some ⟨"MSK1", "ПВЗ Ленина", some "ул. Ленина 1", none⟩,
          some "+79991234567", some "Москва"⟩ : OrderSession)
        (⟨[⟨3, "Чай Да Хун Пао", 500, "улун", 300, none⟩], []⟩ :
          World)).2).orders.length = 1 := by
  obtain ⟨o, w2, h, _, _, _, _, _, horders, _⟩ :=
    order_total_price_snapshot 42
      ⟨some 3, some 2, some ⟨"MSK1", "ПВЗ Ленина", some "ул. Ленина 1", none⟩,
        some "+79991234567", some "Москва"⟩
      ⟨[⟨3, "Чай Да Хун Пао", 500, "улун", 300, none⟩], []⟩
      ⟨"MSK1", "ПВЗ Ленина", some "ул. Ленина 1", none⟩ 3 2 "Москва"
      ⟨3, "Чай Да Хун Пао", 500, "улун", 300, none⟩ rfl rfl rfl rfl rfl
  rw [h, horders]
  rfl
